import Mathlib

/-!
Shallow embedding of the HUB SOBERANO jewelry-consignment backend
(`src/server.ts`): an Express + SQLite application whose tables are
`employees`, `products`, `cases`, `case_items`, `manual_commissions` and
`logs`.  Each table is a list of rows; SQLite AUTOINCREMENT primary keys
are modelled by per-table counters.  SQLite `REAL` monetary columns are
modelled by `ℚ`.  Each HTTP handler becomes a pure function from the
database state (plus the request body) to the new state and response.
Status strings are kept exactly as in the source: a case status is
`"PARADO"` (idle), `"EM_CAMPO"` (in field) or the restock value.
-/

namespace HubSoberano

/-- Row of the `employees` table. -/
structure Employee where
  id : Nat
  name : String
  whatsapp : String
deriving DecidableEq

/-- Row of the `products` table (`status` is `"active"` or `"removed"`). -/
structure Product where
  id : Nat
  name : String
  category : String
  price : ℚ
  photo : Option String
  status : String
deriving DecidableEq

/-- Row of the `cases` table.  `employee_id` is nullable; dates are
millisecond timestamps (`new Date().toISOString()` of a millisecond clock). -/
structure Case where
  id : Nat
  name : String
  employee_id : Option Nat
  photo : Option String
  delivery_date : Nat
  return_date : Nat
  status : String
  total_value : ℚ
deriving DecidableEq

/-- Row of the `case_items` table. -/
structure CaseItem where
  id : Nat
  case_id : Nat
  product_id : Nat
  quantity : Nat
  price_at_time : ℚ
deriving DecidableEq

/-- Row of the `manual_commissions` table. -/
structure ManualCommission where
  id : Nat
  employee_id : Nat
  product_name : String
  price : ℚ
  commission_value : ℚ
deriving DecidableEq

/-- Row of the `logs` table (`case_id` is nullable). -/
structure LogEntry where
  id : Nat
  case_id : Option Nat
  action : String
  details : String
deriving DecidableEq

/-- The whole SQLite database `soberano.db`: one list per table plus the
AUTOINCREMENT counter of each table. -/
structure DB where
  employees : List Employee
  products : List Product
  cases : List Case
  case_items : List CaseItem
  manual_commissions : List ManualCommission
  logs : List LogEntry
  nextEmployeeId : Nat
  nextProductId : Nat
  nextCaseId : Nat
  nextItemId : Nat
  nextLogId : Nat
  nextCommissionId : Nat
deriving DecidableEq

/-- One entry of the `items` array in a case create/update request body:
`{product_id, quantity, price}`. -/
structure ItemInput where
  product_id : Nat
  quantity : Nat
  price : ℚ
deriving DecidableEq

/-- Result of a mutating handler: the database afterwards, the HTTP status
code sent, and the `error` field of the JSON response when present. -/
structure HandlerResult where
  db : DB
  status : Nat
  error : Option String
deriving DecidableEq

/-- JavaScript truthiness of a nullable numeric request field
(`employee_id ? … : …`): `null`/`undefined` and `0` are falsy. -/
def jsTruthy : Option Nat → Bool
  | none => false
  | some n => n != 0

/-- `SELECT * FROM case_items WHERE case_id = ?`. -/
def caseItemsOf (db : DB) (cid : Nat) : List CaseItem :=
  db.case_items.filter (fun it => it.case_id == cid)

/-- `Σ price_at_time × quantity` over a list of line items. -/
def itemsSubtotal (its : List CaseItem) : ℚ :=
  (its.map (fun it => it.price_at_time * (it.quantity : ℚ))).sum

/-- The running `totalValue` accumulation of the item-insert loops:
`Σ item.price × item.quantity` over the request items. -/
def sumInputs (items : List ItemInput) : ℚ :=
  (items.map (fun i => i.price * (i.quantity : ℚ))).sum

/-- The observable payload of a stored line item. -/
def itemKey (it : CaseItem) : Nat × Nat × ℚ :=
  (it.product_id, it.quantity, it.price_at_time)

/-- The payload of a requested line item. -/
def inputKey (i : ItemInput) : Nat × Nat × ℚ :=
  (i.product_id, i.quantity, i.price)

/-- The `for (const item of items)` loop shared by `POST /api/cases` and
`PUT /api/cases/:id`: inserts each item row with `price_at_time = item.price`
and accumulates `totalValue += item.price * item.quantity`. -/
def insertItems (db : DB) (cid : Nat) (items : List ItemInput) (acc : ℚ) :
    DB × ℚ :=
  match items with
  | [] => (db, acc)
  | item :: rest =>
      insertItems
        { db with
          case_items := db.case_items ++
            [{ id := db.nextItemId, case_id := cid,
               product_id := item.product_id, quantity := item.quantity,
               price_at_time := item.price }],
          nextItemId := db.nextItemId + 1 }
        cid rest (acc + item.price * (item.quantity : ℚ))

/-- `POST /api/cases`: inside one transaction, inserts the case row with
`delivery_date = now`, `return_date = now + 60 days`, status `'EM_CAMPO'`
when `employee_id` is truthy else `'PARADO'`, inserts every item, sets
`total_value` to the accumulated sum and appends the `CREATE` log entry.
Returns the new database and the new case id. -/
def createCase (db : DB) (name : String) (employee_id : Option Nat)
    (photo : Option String) (items : List ItemInput) (now : Nat) :
    DB × Nat :=
  let caseId := db.nextCaseId
  let db1 : DB :=
    { db with
      cases := db.cases ++
        [{ id := caseId, name := name, employee_id := employee_id,
           photo := photo, delivery_date := now,
           return_date := now + 60 * 24 * 60 * 60 * 1000,
           status := if jsTruthy employee_id then "EM_CAMPO" else "PARADO",
           total_value := 0 }],
      nextCaseId := db.nextCaseId + 1 }
  let inserted := insertItems db1 caseId items 0
  let db2 := inserted.1
  let totalValue := inserted.2
  let db3 : DB :=
    { db2 with
      cases := db2.cases.map (fun c =>
        if c.id == caseId then { c with total_value := totalValue } else c) }
  let db4 : DB :=
    { db3 with
      logs := db3.logs ++
        [{ id := db3.nextLogId, case_id := some caseId, action := "CREATE",
           details := "Maleta criada com " ++ toString items.length ++
             " itens." }],
      nextLogId := db3.nextLogId + 1 }
  (db4, caseId)

/-- `PUT /api/cases/:id`: inside one transaction, overwrites `name`,
`employee_id` and `status`; when an `items` array is supplied, deletes all
line items of the case, reinserts the new set and recomputes `total_value`;
finally appends the `UPDATE` log entry. -/
def updateCase (db : DB) (caseId : Nat) (name : String)
    (employee_id : Option Nat) (status : String)
    (items : Option (List ItemInput)) : DB :=
  let db1 : DB :=
    { db with
      cases := db.cases.map (fun c =>
        if c.id == caseId then
          { c with
            name := name, employee_id := employee_id, status := status }
        else c) }
  let db2 : DB :=
    match items with
    | none => db1
    | some l =>
        let dbDel : DB :=
          { db1 with
            case_items := db1.case_items.filter
              (fun it => !(it.case_id == caseId)) }
        let inserted := insertItems dbDel caseId l 0
        { inserted.1 with
          cases := inserted.1.cases.map (fun c =>
            if c.id == caseId then { c with total_value := inserted.2 }
            else c) }
  { db2 with
    logs := db2.logs ++
      [{ id := db2.nextLogId, case_id := some caseId, action := "UPDATE",
         details := "Maleta atualizada." }],
    nextLogId := db2.nextLogId + 1 }

/-- `DELETE /api/cases/:id`: inside one transaction, deletes the line items
of the case, the log entries whose `case_id` equals the case id (SQL
`case_id = ?` never matches a NULL `case_id`), and the case row. -/
def deleteCase (db : DB) (caseId : Nat) : DB :=
  { db with
    case_items := db.case_items.filter (fun it => !(it.case_id == caseId)),
    logs := db.logs.filter (fun lg => !(lg.case_id == some caseId)),
    cases := db.cases.filter (fun c => !(c.id == caseId)) }

/-- Number of cases of an employee with status `'EM_CAMPO'`
(`SELECT COUNT(*) FROM cases WHERE employee_id = ? AND status = 'EM_CAMPO'`). -/
def inFieldCount (db : DB) (eid : Nat) : Nat :=
  (db.cases.filter (fun c =>
    c.employee_id == some eid && c.status == "EM_CAMPO")).length

/-- `DELETE /api/employees/:id`: answers 400 with the conflict message and
leaves the database untouched when the employee has a case in field,
otherwise hard-deletes the employee row (no cascade to cases). -/
def deleteEmployee (db : DB) (eid : Nat) : HandlerResult :=
  if 0 < inFieldCount db eid then
    { db := db, status := 400,
      error := some "Vendedora possui maletas em campo." }
  else
    { db := { db with
        employees := db.employees.filter (fun e => !(e.id == eid)) },
      status := 200, error := none }

/-- `PUT /api/products/:id`: overwrites the mutable fields of the matching
product row and answers `{success: true}` (HTTP 200) whether or not a row
matched. -/
def updateProduct (db : DB) (pid : Nat) (name category : String)
    (price : ℚ) (photo : Option String) : HandlerResult :=
  { db := { db with
      products := db.products.map (fun p =>
        if p.id == pid then
          { p with
            name := name, category := category, price := price,
            photo := photo }
        else p) },
    status := 200, error := none }

/-- `DELETE /api/products/:id`: soft delete — sets `status = 'removed'` on
the matching row and answers `{success: true}` (HTTP 200) whether or not a
row matched. -/
def deleteProduct (db : DB) (pid : Nat) : HandlerResult :=
  { db := { db with
      products := db.products.map (fun p =>
        if p.id == pid then { p with status := "removed" } else p) },
    status := 200, error := none }

/-- `Σ total_value` over the cases assigned to an employee
(`SUM(c.total_value) … LEFT JOIN cases c ON e.id = c.employee_id`). -/
def caseSalesSum (db : DB) (eid : Nat) : ℚ :=
  ((db.cases.filter (fun c => c.employee_id == some eid)).map
    (fun c => c.total_value)).sum

/-- `Σ price` over the manual commissions of an employee
(`SELECT SUM(price) FROM manual_commissions WHERE employee_id = ?`). -/
def manualPriceSum (db : DB) (eid : Nat) : ℚ :=
  ((db.manual_commissions.filter (fun m => m.employee_id == eid)).map
    (fun m => m.price)).sum

/-- `GET /api/employees`: each employee with the derived `total_sales`
column, `COALESCE(SUM(c.total_value), 0)` over that employee's cases. -/
def listEmployees (db : DB) : List (Employee × ℚ) :=
  db.employees.map (fun e => (e, caseSalesSum db e.id))

/-- Modelled from the spec (§3 Agent, §4.2 Roster store), for comparison
with `listEmployees`: the spec's formula for `total_sales`, the sum of
`total_value` over the agent's cases **plus** the sum of the agent's
manual commission `price` entries. -/
def specTotalSales (db : DB) (eid : Nat) : ℚ :=
  caseSalesSum db eid + manualPriceSum db eid

/-- The frontend commission calculator:
`rate = total >= 5000 ? 0.4 : 0.3; { rate: rate * 100, value: total * rate }`.
First component is the percentage, second the payout. -/
def calculateCommission (total : ℚ) : ℚ × ℚ :=
  let rate : ℚ := if 5000 ≤ total then 0.4 else 0.3
  (rate * 100, total * rate)

/-- The premium flag of the dashboard card (`c.total_value > 8000`). -/
def isPremium (c : Case) : Bool :=
  decide (8000 < c.total_value)

/-- `POST /api/manual-commissions`: inserts the row and returns its id. -/
def addManualCommission (db : DB) (eid : Nat) (pname : String)
    (price commission : ℚ) : DB × Nat :=
  ({ db with
      manual_commissions := db.manual_commissions ++
        [{ id := db.nextCommissionId, employee_id := eid,
           product_name := pname, price := price,
           commission_value := commission }],
      nextCommissionId := db.nextCommissionId + 1 },
    db.nextCommissionId)

/-- The JSON answered by `GET /api/stats`. -/
structure Stats where
  vgv : ℚ
  activeCases : Nat
  premiumCases : Nat
  totalEmployees : Nat
  salesByEmployee : List (String × ℚ)
deriving DecidableEq

/-- `GET /api/stats`: `vgv` is the `total_value` sum over cases with status
different from `'PARADO'` plus the sum of all manual-commission prices;
`premiumCases` counts cases with `total_value > 8000`; `salesByEmployee`
pairs each employee name with its case sum plus manual-commission sum. -/
def getStats (db : DB) : Stats :=
  { vgv := ((db.cases.filter (fun c => !(c.status == "PARADO"))).map
        (fun c => c.total_value)).sum +
      (db.manual_commissions.map (fun m => m.price)).sum,
    activeCases :=
      (db.cases.filter (fun c => c.status == "EM_CAMPO")).length,
    premiumCases :=
      (db.cases.filter (fun c => decide (8000 < c.total_value))).length,
    totalEmployees := db.employees.length,
    salesByEmployee := db.employees.map (fun e =>
      (e.name, caseSalesSum db e.id + manualPriceSum db e.id)) }

/-! ### Concrete sample databases for witnesses and counterexamples -/

/-- The freshly initialized database: empty tables, counters at 1. -/
def dbEmpty : DB :=
  { employees := [], products := [], cases := [], case_items := [],
    manual_commissions := [], logs := [], nextEmployeeId := 1,
    nextProductId := 1, nextCaseId := 1, nextItemId := 1, nextLogId := 1,
    nextCommissionId := 1 }

/-- A sample agent. -/
def empAna : Employee :=
  { id := 1, name := "Ana", whatsapp := "5511999999999" }

/-- One agent with one manual commission of price 200 and no cases. -/
def dbManualOnly : DB :=
  { dbEmpty with
    employees := [empAna],
    manual_commissions := [{
      id := 1, employee_id := 1, product_name := "Anel Solitario",
      price := 200, commission_value := 60 }],
    nextEmployeeId := 2, nextCommissionId := 2 }

/-- A delivered case worth 500, assigned to agent 1. -/
def caseSmall : Case :=
  { id := 1, name := "Maleta Sul", employee_id := some 1, photo := none,
    delivery_date := 0, return_date := 5184000000, status := "EM_CAMPO",
    total_value := 500 }

/-- One agent owning one in-field case worth 500. -/
def dbOneCase : DB :=
  { dbEmpty with
    employees := [empAna], cases := [caseSmall],
    nextEmployeeId := 2, nextCaseId := 2 }

/-- One catalog product with id 1. -/
def dbOneProduct : DB :=
  { dbEmpty with
    products := [{
      id := 1, name := "Brinco Ouro", category := "brinco", price := 450,
      photo := none, status := "active" }],
    nextProductId := 2 }

/-- The case row produced by creating a case on `dbEmpty` from two units of
a 100-priced product for agent 1 at time 0. -/
def caseCreated : Case :=
  { id := 1, name := "Maleta Nova", employee_id := some 1, photo := none,
    delivery_date := 0, return_date := 5184000000, status := "EM_CAMPO",
    total_value := 200 }

/-- Stats scenario of the spec: agent 1 receives a case of value 6000 and a
manual commission of price 200. -/
def dbStats : DB :=
  (addManualCommission
    (createCase { dbEmpty with employees := [empAna], nextEmployeeId := 2 }
      "Maleta A" (some 1) none
      [{ product_id := 10, quantity := 1, price := 6000 }] 0).1
    1 "Anel Extra" 200 60).1

/-- A case sitting exactly at the premium threshold. -/
def caseAt8000 : Case :=
  { caseSmall with id := 2, total_value := 8000 }

/-- A case one cent above the premium threshold. -/
def caseAbove8000 : Case :=
  { caseSmall with id := 3, total_value := 8000.01 }

/-! ### Helper lemmas about the item-insert loop and list updates -/

@[simp] theorem insertItems_cases (db : DB) (cid : Nat)
    (items : List ItemInput) (acc : ℚ) :
    (insertItems db cid items acc).1.cases = db.cases := by
  induction items generalizing db acc with
  | nil => rfl
  | cons item rest ih =>
      simp only [insertItems]
      exact ih _ _

@[simp] theorem insertItems_logs (db : DB) (cid : Nat)
    (items : List ItemInput) (acc : ℚ) :
    (insertItems db cid items acc).1.logs = db.logs := by
  induction items generalizing db acc with
  | nil => rfl
  | cons item rest ih =>
      simp only [insertItems]
      exact ih _ _

@[simp] theorem insertItems_employees (db : DB) (cid : Nat)
    (items : List ItemInput) (acc : ℚ) :
    (insertItems db cid items acc).1.employees = db.employees := by
  induction items generalizing db acc with
  | nil => rfl
  | cons item rest ih =>
      simp only [insertItems]
      exact ih _ _

@[simp] theorem insertItems_products (db : DB) (cid : Nat)
    (items : List ItemInput) (acc : ℚ) :
    (insertItems db cid items acc).1.products = db.products := by
  induction items generalizing db acc with
  | nil => rfl
  | cons item rest ih =>
      simp only [insertItems]
      exact ih _ _

@[simp] theorem insertItems_commissions (db : DB) (cid : Nat)
    (items : List ItemInput) (acc : ℚ) :
    (insertItems db cid items acc).1.manual_commissions =
      db.manual_commissions := by
  induction items generalizing db acc with
  | nil => rfl
  | cons item rest ih =>
      simp only [insertItems]
      exact ih _ _

@[simp] theorem insertItems_nextLogId (db : DB) (cid : Nat)
    (items : List ItemInput) (acc : ℚ) :
    (insertItems db cid items acc).1.nextLogId = db.nextLogId := by
  induction items generalizing db acc with
  | nil => rfl
  | cons item rest ih =>
      simp only [insertItems]
      exact ih _ _

/-- The accumulated `totalValue` of the item loop is the input accumulator
plus `Σ price × quantity` over the inserted items. -/
theorem insertItems_total (db : DB) (cid : Nat) (items : List ItemInput)
    (acc : ℚ) :
    (insertItems db cid items acc).2 = acc + sumInputs items := by
  induction items generalizing db acc with
  | nil => simp [insertItems, sumInputs]
  | cons item rest ih =>
      simp only [insertItems]
      rw [ih]
      simp [sumInputs]
      ring

/-- The item loop appends exactly the requested items (in order, with
`price_at_time` the requested price) to the line items of the case. -/
theorem insertItems_items (db : DB) (cid : Nat) (items : List ItemInput)
    (acc : ℚ) :
    ((insertItems db cid items acc).1.case_items.filter
        (fun it => it.case_id == cid)).map itemKey =
      (db.case_items.filter (fun it => it.case_id == cid)).map itemKey ++
        items.map inputKey := by
  induction items generalizing db acc with
  | nil => simp [insertItems]
  | cons item rest ih =>
      simp only [insertItems]
      rw [ih]
      simp [List.filter_append, itemKey, inputKey]

/-- The item loop leaves the line items of every other case untouched. -/
theorem insertItems_other (db : DB) (cid : Nat) (items : List ItemInput)
    (acc : ℚ) :
    (insertItems db cid items acc).1.case_items.filter
        (fun it => !(it.case_id == cid)) =
      db.case_items.filter (fun it => !(it.case_id == cid)) := by
  induction items generalizing db acc with
  | nil => rfl
  | cons item rest ih =>
      simp only [insertItems]
      rw [ih]
      simp [List.filter_append]

theorem itemsSubtotal_eq_key (its : List CaseItem) :
    itemsSubtotal its =
      ((its.map itemKey).map (fun k => k.2.2 * (k.2.1 : ℚ))).sum := by
  rw [List.map_map]
  rfl

theorem sumInputs_eq_key (items : List ItemInput) :
    sumInputs items =
      ((items.map inputKey).map (fun k => k.2.2 * (k.2.1 : ℚ))).sum := by
  rw [List.map_map]
  rfl

/-- The item loop adds `Σ price × quantity` to the subtotal of the case. -/
theorem insertItems_subtotal (db : DB) (cid : Nat) (items : List ItemInput)
    (acc : ℚ) :
    itemsSubtotal ((insertItems db cid items acc).1.case_items.filter
        (fun it => it.case_id == cid)) =
      itemsSubtotal (db.case_items.filter (fun it => it.case_id == cid)) +
        sumInputs items := by
  rw [itemsSubtotal_eq_key, insertItems_items, List.map_append,
    List.sum_append, ← itemsSubtotal_eq_key, ← sumInputs_eq_key]

/-- Filtering twice with the same predicate filters once. -/
theorem filter_idem {α : Type} (p : α → Bool) (l : List α) :
    (l.filter p).filter p = l.filter p := by
  induction l with
  | nil => rfl
  | cons a t ih => cases h : p a <;> simp [h, ih]

/-- A conditional row update whose condition matches no row is the
identity. -/
theorem map_update_id (l : List Case) (cid : Nat) (f : Case → Case)
    (h : ∀ c ∈ l, c.id ≠ cid) :
    l.map (fun c => if c.id == cid then f c else c) = l := by
  induction l with
  | nil => rfl
  | cons a t ih =>
      have ha : (a.id == cid) = false := by
        simpa using h a (List.mem_cons_self a t)
      simp only [List.map_cons, ha, Bool.false_eq_true, if_false]
      rw [ih fun c hc => h c (List.mem_cons_of_mem a hc)]

/-- Filtering for rows that a preceding `DELETE … WHERE` removed yields
nothing. -/
theorem filter_not_filter {α : Type} (p : α → Bool) (l : List α) :
    (l.filter (fun a => !(p a))).filter p = [] := by
  induction l with
  | nil => rfl
  | cons a t ih => cases h : p a <;> simp [h, ih]

/-- A database none of whose line items reference `cid` has no line items
for `cid`. -/
theorem caseItemsOf_eq_nil {db : DB} {cid : Nat}
    (h : ∀ it ∈ db.case_items, it.case_id ≠ cid) :
    caseItemsOf db cid = [] := by
  rw [caseItemsOf, List.filter_eq_nil_iff]
  intro it hit
  simpa using h it hit

/-- After `UPDATE cases SET total_value = t WHERE id = cid`, every row with
id `cid` carries `total_value = t`. -/
theorem mem_map_update_total {l : List Case} {cid : Nat} {t : ℚ} :
    ∀ c ∈ l.map (fun c =>
        if c.id == cid then { c with total_value := t } else c),
      c.id = cid → c.total_value = t := by
  intro c hc hid
  rcases List.mem_map.mp hc with ⟨a, _, rfl⟩
  cases h : (a.id == cid) with
  | true => simp [h]
  | false =>
      simp only [h, Bool.false_eq_true, if_false] at hid ⊢
      exact absurd hid (by simpa using h)

/-- Structural description of `POST /api/cases` on a database whose case
ids are all below the AUTOINCREMENT counter. -/
theorem createCase_spec (db : DB) (nm : String) (emp : Option Nat)
    (photo : Option String) (items : List ItemInput) (now : Nat)
    (hc : ∀ c ∈ db.cases, c.id ≠ db.nextCaseId) :
    (createCase db nm emp photo items now).2 = db.nextCaseId ∧
    (createCase db nm emp photo items now).1.cases = db.cases ++
      [{ id := db.nextCaseId, name := nm, employee_id := emp,
         photo := photo, delivery_date := now,
         return_date := now + 60 * 24 * 60 * 60 * 1000,
         status := if jsTruthy emp then "EM_CAMPO" else "PARADO",
         total_value := sumInputs items }] ∧
    (createCase db nm emp photo items now).1.logs = db.logs ++
      [{ id := db.nextLogId, case_id := some db.nextCaseId,
         action := "CREATE",
         details := "Maleta criada com " ++ toString items.length ++
           " itens." }] ∧
    ((caseItemsOf (createCase db nm emp photo items now).1
        db.nextCaseId).map itemKey =
      (caseItemsOf db db.nextCaseId).map itemKey ++ items.map inputKey) ∧
    (itemsSubtotal (caseItemsOf (createCase db nm emp photo items now).1
        db.nextCaseId) =
      itemsSubtotal (caseItemsOf db db.nextCaseId) + sumInputs items) ∧
    ((createCase db nm emp photo items now).1.case_items.filter
        (fun it => !(it.case_id == db.nextCaseId)) =
      db.case_items.filter (fun it => !(it.case_id == db.nextCaseId))) := by
  refine ⟨rfl, ?_, ?_, ?_, ?_, ?_⟩
  · simp only [createCase, insertItems_cases, List.map_append,
      insertItems_total, zero_add]
    rw [map_update_id _ _ _ hc]
    simp
  · simp only [createCase, insertItems_logs, insertItems_nextLogId]
  · simp only [createCase, caseItemsOf]
    rw [insertItems_items]
  · simp only [createCase, caseItemsOf]
    rw [insertItems_subtotal]
  · simp only [createCase]
    rw [insertItems_other]

/-- Structural description of `PUT /api/cases/:id` when the body carries no
`items` array: only the scalar columns change, plus the appended log row. -/
theorem updateCase_none_spec (db : DB) (cid : Nat) (nm : String)
    (emp : Option Nat) (st : String) :
    (updateCase db cid nm emp st none).case_items = db.case_items ∧
    (updateCase db cid nm emp st none).logs = db.logs ++
      [{ id := db.nextLogId, case_id := some cid, action := "UPDATE",
         details := "Maleta atualizada." }] ∧
    (updateCase db cid nm emp st none).cases = db.cases.map (fun c =>
      if c.id == cid then
        { c with name := nm, employee_id := emp, status := st }
      else c) := by
  refine ⟨rfl, rfl, rfl⟩

/-- Structural description of `PUT /api/cases/:id` when the body carries an
`items` array: the case's line items are replaced wholesale, `total_value`
is recomputed, other cases' items survive, and the log row is appended. -/
theorem updateCase_some_spec (db : DB) (cid : Nat) (nm : String)
    (emp : Option Nat) (st : String) (l : List ItemInput) :
    ((caseItemsOf (updateCase db cid nm emp st (some l)) cid).map itemKey =
      l.map inputKey) ∧
    (itemsSubtotal (caseItemsOf (updateCase db cid nm emp st (some l)) cid) =
      sumInputs l) ∧
    ((updateCase db cid nm emp st (some l)).case_items.filter
        (fun it => !(it.case_id == cid)) =
      db.case_items.filter (fun it => !(it.case_id == cid))) ∧
    (∀ c ∈ (updateCase db cid nm emp st (some l)).cases,
      c.id = cid → c.total_value = sumInputs l) ∧
    ((updateCase db cid nm emp st (some l)).logs = db.logs ++
      [{ id := db.nextLogId, case_id := some cid, action := "UPDATE",
         details := "Maleta atualizada." }]) := by
  refine ⟨?_, ?_, ?_, ?_, ?_⟩
  · simp only [updateCase, caseItemsOf]
    rw [insertItems_items]
    simp [filter_not_filter]
  · simp only [updateCase, caseItemsOf]
    rw [insertItems_subtotal]
    simp [filter_not_filter, itemsSubtotal]
  · simp only [updateCase]
    rw [insertItems_other]
    simp [filter_idem]
  · simp only [updateCase]
    intro c hc hid
    rw [mem_map_update_total c hc hid, insertItems_total, zero_add]
  · simp only [updateCase, insertItems_logs, insertItems_nextLogId]

/-! ### Claim theorems -/

/-- Claim C2: the commission calculator is a pure function of the total:
the rate is 40% for totals ≥ 5000 (inclusive boundary) and 30% below, the
payout equals total × rate, and in particular rate(4999.99) = 30%,
rate(5000) = 40%, rate(5000.01) = 40%. -/
theorem commission_rate_payout (total : ℚ) (h : 0 ≤ total) :
    ((5000 ≤ total → (calculateCommission total).1 = 40) ∧
     (total < 5000 → (calculateCommission total).1 = 30) ∧
     (calculateCommission total).2 =
       total * ((calculateCommission total).1 / 100)) ∧
    (calculateCommission 4999.99).1 = 30 ∧
    (calculateCommission 5000).1 = 40 ∧
    (calculateCommission 5000.01).1 = 40 := by
  refine ⟨⟨?_, ?_, ?_⟩, ?_, ?_, ?_⟩
  · intro h5
    simp only [calculateCommission, if_pos h5]
    norm_num
  · intro h5
    simp only [calculateCommission, if_neg (not_le.mpr h5)]
    norm_num
  · simp only [calculateCommission]
    split_ifs <;> ring_nf
  · norm_num [calculateCommission]
  · norm_num [calculateCommission]
  · norm_num [calculateCommission]

/-- Witness for C2 at total = 6000. -/
theorem commission_rate_payout_witness :
    (0 : ℚ) ≤ 6000 ∧ (calculateCommission 6000).1 = 40 :=
  ⟨by norm_num,
   (commission_rate_payout 6000 (by norm_num)).1.1 (by norm_num)⟩

/-- Claim C4 (code bug): updating or soft-deleting a product whose id does
not exist answers HTTP 200 with `{success: true}` and no error — a silent
no-op — instead of the not-found condition the spec requires.  Evaluated
at id 999 on a catalog holding only product 1. -/
theorem product_unknown_id_silent_noop :
    (updateProduct dbOneProduct 999 "Novo" "anel" 10 none).status = 200 ∧
    (updateProduct dbOneProduct 999 "Novo" "anel" 10 none).error = none ∧
    (updateProduct dbOneProduct 999 "Novo" "anel" 10 none).db =
      dbOneProduct ∧
    (deleteProduct dbOneProduct 999).status = 200 ∧
    (deleteProduct dbOneProduct 999).error = none ∧
    (deleteProduct dbOneProduct 999).db = dbOneProduct := by
  refine ⟨rfl, rfl, by rfl, rfl, rfl, by rfl⟩

/-- Claim C6: deleting a case removes, in one transaction, every line item
of the case, every log entry referencing the case id, and the case row
itself. -/
theorem case_delete_cascades (db : DB) (cid : Nat) :
    caseItemsOf (deleteCase db cid) cid = [] ∧
    (deleteCase db cid).logs.filter (fun lg => lg.case_id == some cid) =
      [] ∧
    (deleteCase db cid).cases.filter (fun c => c.id == cid) = [] := by
  refine ⟨?_, ?_, ?_⟩
  · simpa [caseItemsOf, deleteCase] using
      filter_not_filter (fun it : CaseItem => it.case_id == cid)
        db.case_items
  · simpa [deleteCase] using
      filter_not_filter (fun lg : LogEntry => lg.case_id == some cid)
        db.logs
  · simpa [deleteCase] using
      filter_not_filter (fun c : Case => c.id == cid) db.cases

/-- Claim C9: a case is premium iff its `total_value` is strictly greater
than 8000 (8000 itself is not premium, 8000.01 is), and the stats
endpoint's premium count uses exactly this predicate. -/
theorem premium_strict_threshold (c : Case) :
    (isPremium c = true ↔ 8000 < c.total_value) ∧
    (c.total_value = 8000 → isPremium c = false) ∧
    (c.total_value = (8000.01 : ℚ) → isPremium c = true) ∧
    (∀ db : DB, (getStats db).premiumCases =
      (db.cases.filter (fun x => isPremium x)).length) := by
  refine ⟨?_, ?_, ?_, fun db => rfl⟩
  · simp [isPremium]
  · intro h
    simp [isPremium, h]
  · intro h
    simp only [isPremium, h, decide_eq_true_eq]
    norm_num

/-- Witness for C9 at the two boundary cases. -/
theorem premium_strict_threshold_witness :
    caseAbove8000.total_value = (8000.01 : ℚ) ∧
    isPremium caseAbove8000 = true :=
  ⟨rfl, (premium_strict_threshold caseAbove8000).2.2.1 rfl⟩

/-- Claim C1: after every case create, and after every case update that
supplies an item list, the stored `total_value` of the affected case equals
`Σ price_at_time × quantity` over its resulting line items; the
recomputation is part of the same (atomic) mutation, modelled here by the
single state-transforming function.  The two freshness hypotheses say the
AUTOINCREMENT counter is ahead of every stored case id. -/
theorem total_value_invariant (db : DB) (nm nm2 : String)
    (emp emp2 : Option Nat) (photo : Option String) (st : String)
    (items l : List ItemInput) (now cid : Nat)
    (hc : ∀ c ∈ db.cases, c.id ≠ db.nextCaseId)
    (hi : ∀ it ∈ db.case_items, it.case_id ≠ db.nextCaseId) :
    (∀ c ∈ (createCase db nm emp photo items now).1.cases,
      c.id = (createCase db nm emp photo items now).2 →
      c.total_value = itemsSubtotal
        (caseItemsOf (createCase db nm emp photo items now).1
          (createCase db nm emp photo items now).2)) ∧
    (∀ c ∈ (updateCase db cid nm2 emp2 st (some l)).cases,
      c.id = cid →
      c.total_value = itemsSubtotal
        (caseItemsOf (updateCase db cid nm2 emp2 st (some l)) cid)) := by
  obtain ⟨h1, h2, h3, h4, h5, h6⟩ :=
    createCase_spec db nm emp photo items now hc
  constructor
  · intro c hcm hcid
    rw [h1] at hcid
    rw [h1, h5, caseItemsOf_eq_nil hi]
    rw [h2] at hcm
    rcases List.mem_append.mp hcm with hmem | hmem
    · exact absurd hcid (hc c hmem)
    · rw [List.mem_singleton] at hmem
      subst hmem
      simp [itemsSubtotal]
  · intro c hcm hcid
    obtain ⟨u1, u2, u3, u4, u5⟩ := updateCase_some_spec db cid nm2 emp2 st l
    rw [u2]
    exact u4 c hcm hcid

/-- Witness for C1: creating a case on the empty database from two units
priced 100 stores total 200, matching the line-item subtotal. -/
theorem total_value_invariant_witness :
    caseCreated.total_value = itemsSubtotal
      (caseItemsOf (createCase dbEmpty "Maleta Nova" (some 1) none
          [{ product_id := 5, quantity := 2, price := 100 }] 0).1
        (createCase dbEmpty "Maleta Nova" (some 1) none
          [{ product_id := 5, quantity := 2, price := 100 }] 0).2) :=
  (total_value_invariant dbEmpty "Maleta Nova" "x" (some 1) none none
      "PARADO" [{ product_id := 5, quantity := 2, price := 100 }] [] 0 1
      (by decide) (by decide)).1 caseCreated
    (by norm_num [createCase, insertItems, dbEmpty, caseCreated, jsTruthy])
    rfl

/-- Claim C7: creating a case from a name, optional agent, optional photo
and an item list sets `delivery_date = now`, `return_date = now + 60 days`,
status in-field iff an agent is present (agent ids are positive), stores
every requested line item, sets `total_value = Σ price × quantity`, and
appends a CREATE log entry recording the item count. -/
theorem case_create_behavior (db : DB) (nm : String) (emp : Option Nat)
    (photo : Option String) (items : List ItemInput) (now : Nat)
    (hc : ∀ c ∈ db.cases, c.id ≠ db.nextCaseId)
    (hi : ∀ it ∈ db.case_items, it.case_id ≠ db.nextCaseId)
    (hemp : ∀ n, emp = some n → n ≠ 0) :
    (createCase db nm emp photo items now).2 = db.nextCaseId ∧
    (createCase db nm emp photo items now).1.cases = db.cases ++
      [{ id := db.nextCaseId, name := nm, employee_id := emp,
         photo := photo, delivery_date := now,
         return_date := now + 60 * 24 * 60 * 60 * 1000,
         status := if emp.isSome then "EM_CAMPO" else "PARADO",
         total_value := sumInputs items }] ∧
    ((caseItemsOf (createCase db nm emp photo items now).1
        db.nextCaseId).map itemKey = items.map inputKey) ∧
    (createCase db nm emp photo items now).1.logs = db.logs ++
      [{ id := db.nextLogId, case_id := some db.nextCaseId,
         action := "CREATE",
         details := "Maleta criada com " ++ toString items.length ++
           " itens." }] := by
  obtain ⟨h1, h2, h3, h4, h5, h6⟩ :=
    createCase_spec db nm emp photo items now hc
  have hjs : jsTruthy emp = emp.isSome := by
    cases emp with
    | none => rfl
    | some n => simp [jsTruthy, hemp n rfl]
  refine ⟨h1, ?_, ?_, h3⟩
  · rw [h2, hjs]
  · rw [h4, caseItemsOf_eq_nil hi]
    simp

/-- Witness for C7: concrete creation on the empty database. -/
theorem case_create_behavior_witness :
    (createCase dbEmpty "Maleta Nova" (some 1) none
      [{ product_id := 5, quantity := 2, price := 100 }] 0).2 =
      dbEmpty.nextCaseId ∧
    (caseItemsOf (createCase dbEmpty "Maleta Nova" (some 1) none
        [{ product_id := 5, quantity := 2, price := 100 }] 0).1
      dbEmpty.nextCaseId).map itemKey =
      ([{ product_id := 5, quantity := 2, price := 100 }] :
        List ItemInput).map inputKey :=
  ⟨(case_create_behavior dbEmpty "Maleta Nova" (some 1) none
      [{ product_id := 5, quantity := 2, price := 100 }] 0
      (by decide) (by decide) (fun n h => by cases h; decide)).1,
   (case_create_behavior dbEmpty "Maleta Nova" (some 1) none
      [{ product_id := 5, quantity := 2, price := 100 }] 0
      (by decide) (by decide) (fun n h => by cases h; decide)).2.2.1⟩

/-- Claim C5: deleting an agent fails with a conflict (HTTP 400 and the
error message) iff the agent has at least one case with status in field,
and on that failure the whole database, in particular the agent row, is
untouched; with zero in-field cases the deletion succeeds, removes the
agent row (hard delete) and cascades to nothing else. -/
theorem agent_delete_guard (db : DB) (eid : Nat) :
    (0 < inFieldCount db eid →
      deleteEmployee db eid =
        { db := db, status := 400,
          error := some "Vendedora possui maletas em campo." }) ∧
    (inFieldCount db eid = 0 →
      (deleteEmployee db eid).status = 200 ∧
      (deleteEmployee db eid).error = none ∧
      (∀ e ∈ (deleteEmployee db eid).db.employees, e.id ≠ eid) ∧
      (∀ e ∈ db.employees, e.id ≠ eid →
        e ∈ (deleteEmployee db eid).db.employees) ∧
      (deleteEmployee db eid).db.cases = db.cases ∧
      (deleteEmployee db eid).db.case_items = db.case_items ∧
      (deleteEmployee db eid).db.logs = db.logs ∧
      (deleteEmployee db eid).db.manual_commissions =
        db.manual_commissions) := by
  constructor
  · intro h
    rw [deleteEmployee, if_pos h]
  · intro h
    have h0 : ¬ 0 < inFieldCount db eid := by omega
    rw [deleteEmployee, if_neg h0]
    refine ⟨rfl, rfl, ?_, ?_, rfl, rfl, rfl, rfl⟩
    · intro e he
      rw [List.mem_filter] at he
      simpa using he.2
    · intro e he hne
      exact List.mem_filter.mpr ⟨he, by simpa using hne⟩

/-- Witness for C5: with one in-field case, deletion of agent 1 is blocked
and the database is unchanged. -/
theorem agent_delete_guard_witness :
    deleteEmployee dbOneCase 1 =
      { db := dbOneCase, status := 400,
        error := some "Vendedora possui maletas em campo." } :=
  (agent_delete_guard dbOneCase 1).1 (by decide)

/-- Claim C10: a case update without an item list changes only the scalar
columns `name`, `employee_id` and `status` and appends the UPDATE log
entry, leaving every case's line items, `total_value`, photo and both
timestamps unchanged; with an item list, the case's line items are
replaced wholesale by the new set (other cases' items untouched) and
`total_value` is recomputed. -/
theorem case_update_frame (db : DB) (cid : Nat) (nm : String)
    (emp : Option Nat) (st : String) :
    ((updateCase db cid nm emp st none).case_items = db.case_items ∧
     (updateCase db cid nm emp st none).logs = db.logs ++
       [{ id := db.nextLogId, case_id := some cid, action := "UPDATE",
          details := "Maleta atualizada." }] ∧
     (∀ c ∈ db.cases, c.id ≠ cid →
        c ∈ (updateCase db cid nm emp st none).cases) ∧
     (∀ c ∈ db.cases, c.id = cid →
        { c with name := nm, employee_id := emp, status := st } ∈
          (updateCase db cid nm emp st none).cases) ∧
     (∀ c' ∈ (updateCase db cid nm emp st none).cases, ∃ c ∈ db.cases,
        c'.id = c.id ∧ c'.total_value = c.total_value ∧
        c'.photo = c.photo ∧ c'.delivery_date = c.delivery_date ∧
        c'.return_date = c.return_date)) ∧
    (∀ l : List ItemInput,
      ((caseItemsOf (updateCase db cid nm emp st (some l)) cid).map
        itemKey = l.map inputKey) ∧
      ((updateCase db cid nm emp st (some l)).case_items.filter
          (fun it => !(it.case_id == cid)) =
        db.case_items.filter (fun it => !(it.case_id == cid))) ∧
      (∀ c ∈ (updateCase db cid nm emp st (some l)).cases,
        c.id = cid → c.total_value = sumInputs l) ∧
      ((updateCase db cid nm emp st (some l)).logs = db.logs ++
        [{ id := db.nextLogId, case_id := some cid, action := "UPDATE",
           details := "Maleta atualizada." }])) := by
  obtain ⟨n1, n2, n3⟩ := updateCase_none_spec db cid nm emp st
  constructor
  · refine ⟨n1, n2, ?_, ?_, ?_⟩
    · intro c hcm hne
      rw [n3]
      refine List.mem_map.mpr ⟨c, hcm, ?_⟩
      have hb : (c.id == cid) = false := by simpa using hne
      simp [hb]
    · intro c hcm hid
      rw [n3]
      refine List.mem_map.mpr ⟨c, hcm, ?_⟩
      have hb : (c.id == cid) = true := by simpa using hid
      simp [hb]
    · intro c' hc'
      rw [n3] at hc'
      rcases List.mem_map.mp hc' with ⟨a, ha, rfl⟩
      refine ⟨a, ha, ?_⟩
      cases hb : (a.id == cid) <;> simp [hb]
  · intro l
    obtain ⟨u1, u2, u3, u4, u5⟩ := updateCase_some_spec db cid nm emp st l
    exact ⟨u1, u3, u4, u5⟩

/-- Witness for C10: updating the scalar fields of case 1 keeps a row for
it whose scalars are overwritten. -/
theorem case_update_frame_witness :
    ({ caseSmall with
        name := "Maleta Norte", employee_id := some 2,
        status := "PARADO" } : Case) ∈
      (updateCase dbOneCase 1 "Maleta Norte" (some 2) "PARADO"
        none).cases :=
  (case_update_frame dbOneCase 1 "Maleta Norte" (some 2) "PARADO").1.2.2.2.1
    caseSmall (by decide) rfl

/-- Claim C3 counterexample: on a database where agent 1 has no cases and
one manual commission of price 200, the list-agents endpoint returns
`total_sales = 0`, while the claimed formula (case totals plus manual
commission prices) gives 200 — the endpoint does not add manual
commissions. -/
theorem agent_total_sales_counterexample :
    listEmployees dbManualOnly = [(empAna, 0)] ∧
    specTotalSales dbManualOnly 1 = 200 ∧
    (0 : ℚ) ≠ 200 := by
  refine ⟨?_, ?_, by norm_num⟩
  · norm_num [listEmployees, caseSalesSum, dbManualOnly, dbEmpty, empAna]
  · norm_num [specTotalSales, caseSalesSum, manualPriceSum, dbManualOnly,
      dbEmpty]

/-- Claim C3 (amended): the `total_sales` returned by the list-agents
endpoint equals the sum of `total_value` over the agent's cases only;
manual commission prices are not added, so the spec's formula holds
exactly when the agent's manual commission prices sum to zero. -/
theorem agent_total_sales_amended (db : DB) (p : Employee × ℚ)
    (hp : p ∈ listEmployees db) :
    p.2 = caseSalesSum db p.1.id ∧
    (manualPriceSum db p.1.id = 0 → p.2 = specTotalSales db p.1.id) := by
  rcases List.mem_map.mp hp with ⟨e, _, rfl⟩
  refine ⟨rfl, ?_⟩
  intro h0
  rw [specTotalSales, h0, add_zero]

/-- Witness for the amended C3 on an agent with one case worth 500 and no
manual commissions. -/
theorem agent_total_sales_amended_witness :
    (empAna, (500 : ℚ)).2 =
      specTotalSales dbOneCase (empAna, (500 : ℚ)).1.id := by
  have hp : (empAna, (500 : ℚ)) ∈ listEmployees dbOneCase := by
    norm_num [listEmployees, caseSalesSum, dbOneCase, dbEmpty, empAna,
      caseSmall]
  exact (agent_total_sales_amended dbOneCase (empAna, 500) hp).2
    (by norm_num [manualPriceSum, dbOneCase, dbEmpty])

/-- Claim C8: on the spec's scenario — agent 1 gets a case of value 6000
(in field) and a manual commission of price 200 — the stats endpoint
reports vgv = 6200 and agent 1's ranked sales total 6200. -/
theorem stats_aggregation_scenario :
    (getStats dbStats).vgv = 6200 ∧
    (getStats dbStats).salesByEmployee = [("Ana", 6200)] ∧
    (getStats dbStats).activeCases = 1 := by
  have hne : ¬ ("EM_CAMPO" = "PARADO") := by decide
  refine ⟨?_, ?_, ?_⟩ <;>
    norm_num [getStats, dbStats, addManualCommission, createCase,
      insertItems, dbEmpty, empAna, caseSalesSum, manualPriceSum, jsTruthy,
      sumInputs, List.filter_cons, List.filter_nil, hne]

end HubSoberano
